import Mathlib

/-!
Shallow embedding of `exposure_wind_lookup.py` (sectoral terrain-exposure
classification engine).  Python floats are modelled as `ℚ` with the exact
decimal values of the source literals; external libraries (shapely geometry
predicates, the geographiclib geodesic) are abstracted as an oracle record;
the network transport of the Overpass call is abstracted as an
`Except String OverpassResult` outcome supplied by the caller.
-/

namespace ExposureWind

/-! ### Python `round` (banker's rounding on exact rationals) -/

/-- Round a rational to the nearest integer, ties to even (Python `round`). -/
def roundHalfEven (x : ℚ) : ℤ :=
  let f : ℤ := ⌊x⌋
  let frac : ℚ := x - (f : ℚ)
  if frac < 1/2 then f
  else if 1/2 < frac then f + 1
  else if f % 2 = 0 then f else f + 1

/-- Python `round(x, d)` for `d` decimal digits. -/
def pyRound (x : ℚ) (d : ℕ) : ℚ :=
  ((roundHalfEven (x * (10 : ℚ) ^ d) : ℤ) : ℚ) / (10 : ℚ) ^ d

/-! ### OSM fragment data model (the JSON `elements` of an Overpass reply) -/

/-- An OSM node element: `{"type": "node", "id": ..., "lat": ..., "lon": ...}`. -/
structure OsmNode where
  id : ℤ
  lat : ℚ
  lon : ℚ
deriving DecidableEq

/-- An OSM way element: node references in order plus its tag mapping. -/
structure OsmWay where
  id : ℤ
  nodeRefs : List ℤ
  tags : List (String × String)
deriving DecidableEq

/-- One member entry of an OSM relation (`type` / `ref` / `role`). -/
structure OsmMember where
  mtype : String
  ref : ℤ
  role : String
deriving DecidableEq

/-- An OSM relation element: tags plus its member list. -/
structure OsmRelation where
  id : ℤ
  tags : List (String × String)
  members : List OsmMember
deriving DecidableEq

/-- A typed Overpass element, `node` / `way` / `relation`. -/
inductive OsmElement where
  | node : OsmNode → OsmElement
  | way : OsmWay → OsmElement
  | relation : OsmRelation → OsmElement
deriving DecidableEq

/-- The JSON body of an Overpass reply: its `elements` list. -/
structure OverpassResult where
  elements : List OsmElement
deriving DecidableEq

/-- Python `dict.get` on an association list; a later binding wins, matching
the overwrite semantics of building a `dict` from a sequence of pairs. -/
def dictGet {α : Type} [DecidableEq α] {β : Type} (l : List (α × β)) (k : α) :
    Option β :=
  (l.reverse.find? (fun kv => kv.1 = k)).map (fun kv => kv.2)

/-- The function `overpass(query)` of the source: on a transport or service
error it swallows the exception and returns the empty-elements structure
`{"elements": []}`; on success it returns the parsed JSON body. -/
def overpass (outcome : Except String OverpassResult) : OverpassResult :=
  match outcome with
  | .ok r => r
  | .error _ => { elements := [] }

/-- The node dictionary `{el["id"]: (el["lat"], el["lon"]) for el in elements
if el["type"] == "node"}` as an association list (pairs are `(lat, lon)`). -/
def nodesOf (data : OverpassResult) : List (ℤ × (ℚ × ℚ)) :=
  data.elements.filterMap (fun el =>
    match el with
    | .node n => some (n.id, (n.lat, n.lon))
    | _ => none)

/-- The list of way elements of an Overpass reply. -/
def waysOf (data : OverpassResult) : List OsmWay :=
  data.elements.filterMap (fun el =>
    match el with
    | .way w => some w
    | _ => none)

/-- The list of relation elements of an Overpass reply. -/
def relsOf (data : OverpassResult) : List OsmRelation :=
  data.elements.filterMap (fun el =>
    match el with
    | .relation r => some r
    | _ => none)

/-- Resolution `[nodes[n] for n in nds if n in nodes]` of a way's node
references to `(lat, lon)` coordinate pairs, skipping unresolved ids. -/
def resolvePts (nodes : List (ℤ × (ℚ × ℚ))) (refs : List ℤ) : List (ℚ × ℚ) :=
  refs.filterMap (fun n => dictGet nodes n)

/-! ### Shapely abstraction -/

/-- The data handed to the shapely `Polygon` constructor: a shell ring and a
list of hole rings, all in `(lon, lat)` coordinate order. -/
structure SPolygon where
  shell : List (ℚ × ℚ)
  holes : List (List (ℚ × ℚ))
deriving DecidableEq

/-- Oracle for the external geometry and geodesic libraries (shapely and
geographiclib).  The embedding is parametric in these: the source calls them
as black boxes and no claim depends on their numeric behaviour. -/
structure GeometryOracle where
  isValid : SPolygon → Bool
  isEmpty : SPolygon → Bool
  polyArea : SPolygon → ℚ
  mpContains : List SPolygon → (ℚ × ℚ) → Bool
  mpBoundaryDist : List SPolygon → (ℚ × ℚ) → ℚ
  unionPolys : List SPolygon → List SPolygon
  destPoint : ℚ → ℚ → ℚ → ℚ → ℚ × ℚ

/-- Closed-ring test of the source: at least 4 resolved points and first
equals last (`len(pts) >= 4 and pts[0] == pts[-1]`). -/
def isClosedRing (pts : List (ℚ × ℚ)) : Bool :=
  decide (4 ≤ pts.length) && decide (pts.head? = pts.getLast?)

/-- Coordinate flip `[(p[1], p[0]) for p in pts]` from `(lat, lon)` to the
shapely `(lon, lat)` order. -/
def lonLat (pts : List (ℚ × ℚ)) : List (ℚ × ℚ) :=
  pts.map (fun p => (p.2, p.1))

/-! ### `fetch_water_polys`: ways → polygons, relations → multipolygons -/

/-- The first loop of `fetch_water_polys`: each closed way becomes a simple
polygon, kept when shapely reports it valid and non-empty. -/
def waysPolys (G : GeometryOracle) (nodes : List (ℤ × (ℚ × ℚ)))
    (ways : List OsmWay) : List SPolygon :=
  ways.foldl (fun polys w =>
    let pts := resolvePts nodes w.nodeRefs
    if isClosedRing pts then
      let poly : SPolygon := { shell := lonLat pts, holes := [] }
      if G.isValid poly && !G.isEmpty poly then polys ++ [poly] else polys
    else polys) []

/-- The member scan of the relation loop: collect closed member rings into
`outers` and `inners` by their `role` string, resolving each member way by
the first way in the reply with a matching id. -/
def relRings (nodes : List (ℤ × (ℚ × ℚ))) (ways : List OsmWay)
    (r : OsmRelation) : List (List (ℚ × ℚ)) × List (List (ℚ × ℚ)) :=
  r.members.foldl (fun acc m =>
    if m.mtype ≠ "way" then acc
    else
      match ways.find? (fun w => w.id = m.ref) with
      | none => acc
      | some w =>
        let pts := resolvePts nodes w.nodeRefs
        if !isClosedRing pts then acc
        else
          let ring := lonLat pts
          if m.role = "outer" then (acc.1 ++ [ring], acc.2)
          else if m.role = "inner" then (acc.1, acc.2 ++ [ring])
          else acc) ([], [])

/-- Tag guard of the relation loop: `tags.get("type") in ("multipolygon",
"boundary")`. -/
def relTypeOk (r : OsmRelation) : Bool :=
  dictGet r.tags "type" = some "multipolygon" ||
    dictGet r.tags "type" = some "boundary"

/-- Polygon construction for one outer ring of a relation: `Polygon(outer)`
re-made as `Polygon(outer, holes=[... all inners ...])` whenever the inner
list is non-empty (the source's `if inners:` rebuild). -/
def mkRelPoly (inners : List (List (ℚ × ℚ))) (outer : List (ℚ × ℚ)) :
    SPolygon :=
  if inners ≠ [] then { shell := outer, holes := inners }
  else { shell := outer, holes := [] }

/-- The polygon-building part of the relation loop of `fetch_water_polys`:
for each outer ring the source constructs the polygon via `mkRelPoly` and
keeps it when shapely reports it valid and non-empty.  Note that the source
passes the whole `inners` list as holes of every outer ring. -/
def relPolys (G : GeometryOracle) (nodes : List (ℤ × (ℚ × ℚ)))
    (ways : List OsmWay) (r : OsmRelation) : List SPolygon :=
  if !relTypeOk r then []
  else
    (relRings nodes ways r).1.foldl (fun polys outer =>
      if G.isValid (mkRelPoly (relRings nodes ways r).2 outer) &&
          !G.isEmpty (mkRelPoly (relRings nodes ways r).2 outer) then
        polys ++ [mkRelPoly (relRings nodes ways r).2 outer]
      else polys) []

/-- The function `fetch_water_polys` of the source, with the Overpass call
abstracted to its `outcome`.  Zero valid polygons yield `none` ("no
topology"); a single polygon is wrapped as a one-element multipolygon;
several are merged by `unary_union` (oracle). -/
def fetch_water_polys (G : GeometryOracle)
    (outcome : Except String OverpassResult) : Option (List SPolygon) :=
  let data := overpass outcome
  let nodes := nodesOf data
  let ways := waysOf data
  let relPart := (relsOf data).foldl (fun acc r => acc ++ relPolys G nodes ways r) []
  let polys := waysPolys G nodes ways ++ relPart
  if polys = [] then none
  else if polys.length = 1 then some polys
  else some (G.unionPolys polys)

/-! ### Distance to water boundary and the per-sector fetch scan -/

/-- The function `distance_to_water_boundary_m`: `None` when the topology is
falsy (absent or empty), otherwise the shapely boundary distance scaled by
the source's fixed 111000 m/degree approximation. -/
def distance_to_water_boundary_m (G : GeometryOracle) (lat lon : ℚ) :
    Option (List SPolygon) → Option ℚ
  | none => none
  | some w =>
    if w.isEmpty then none
    else some (G.mpBoundaryDist w (lon, lat) * 111000)

/-- Containment test of step `i` of the ray-march: project `i * 200` metres
along the azimuth and test the point (in `(lon, lat)` order) against the
multipolygon. -/
def stepContains (G : GeometryOracle) (lat lon az : ℚ) (w : List SPolygon)
    (i : ℕ) : Bool :=
  let p := G.destPoint lat lon az ((i : ℚ) * 200)
  G.mpContains w (p.2, p.1)

/-- The `for i in range(1, num_steps + 1)` loop of
`sector_over_water_fetch_m`: starting at step index `s` with `fuel` steps
remaining and `acc` the last over-water distance, record `i * 200` while
containment holds and break at the first failure. -/
def fetchGo (c : ℕ → Bool) : ℕ → ℕ → ℚ → ℚ
  | _, 0, acc => acc
  | s, fuel + 1, acc =>
    if c s then fetchGo c (s + 1) fuel ((s : ℚ) * 200) else acc

/-- Number of 200 m steps: Python `int(max_check_m / step_m)` (truncation
toward zero; non-positive inputs give zero steps). -/
def numSteps (max_check_m : ℚ) : ℕ :=
  (⌊max_check_m / 200⌋).toNat

/-- The function `sector_over_water_fetch_m` of the source: 0 when the
topology is falsy, otherwise the distance recorded by the break-at-first-gap
scan. -/
def sector_over_water_fetch_m (G : GeometryOracle)
    (lat lon azimuth_deg max_check_m : ℚ) :
    Option (List SPolygon) → ℚ
  | none => 0
  | some w =>
    if w.isEmpty then 0
    else fetchGo (stepContains G lat lon azimuth_deg w) 1 (numSteps max_check_m) 0

/-! ### Land cover, roughness, building density -/

/-- The ordered tag-criteria table `LANDCOVER_TAGS` of the source. -/
def LANDCOVER_TAGS : List (String × List (String × String)) :=
  [("forest", [("natural", "wood")]),
   ("forest", [("landuse", "forest")]),
   ("farmland", [("landuse", "farmland")]),
   ("meadow", [("landuse", "meadow")]),
   ("residential", [("landuse", "residential")]),
   ("industrial", [("landuse", "industrial")]),
   ("commercial", [("landuse", "commercial")])]

/-- The fixed `ROUGHNESS_SCORE` table of the source. -/
def ROUGHNESS_SCORE : List (String × ℚ) :=
  [("industrial", 1),
   ("commercial", 0.95),
   ("residential", 0.9),
   ("forest", 0.8),
   ("meadow", 0.5),
   ("farmland", 0.4)]

/-- Python dict assignment `d[k] = v` on an association list: overwrite in
place when the key exists, append otherwise. -/
def dictSet (l : List (String × ℚ)) (k : String) (v : ℚ) :
    List (String × ℚ) :=
  if l.any (fun kv => kv.1 == k) then
    l.map (fun kv => if kv.1 = k then (kv.1, v) else kv)
  else l ++ [(k, v)]

/-- Python `d[k] += v` for a key already present: add `v` at the matching
entry (a missing key would raise in Python and is unreachable here, so the
mapping is left unchanged in that case). -/
def dictAddTo (l : List (String × ℚ)) (k : String) (v : ℚ) :
    List (String × ℚ) :=
  l.map (fun kv => if kv.1 = k then (kv.1, kv.2 + v) else kv)

/-- The initial totals dict `{k: 0.0 for k, _ in LANDCOVER_TAGS}` (six
distinct keys; the duplicate `forest` entry overwrites in place). -/
def initTotals : List (String × ℚ) :=
  LANDCOVER_TAGS.foldl (fun acc nc => dictSet acc nc.1 0) []

/-- First-match-wins classification of a way's tags against
`LANDCOVER_TAGS` (`all(tags.get(k) == v for k, v in criteria.items())`). -/
def landcover_label (tags : List (String × String)) : Option String :=
  (LANDCOVER_TAGS.find? (fun nc =>
    nc.2.all (fun kv => dictGet tags kv.1 = some kv.2))).map (fun nc => nc.1)

/-- One iteration of the way loop of `landcover_mix`: classify, require a
closed ring and shapely validity, then add the clamped planar area
`max(0, poly.area * 111000² / 10⁶)` to the label's total. -/
def lcStep (G : GeometryOracle) (nodes : List (ℤ × (ℚ × ℚ)))
    (totals : List (String × ℚ)) (w : OsmWay) : List (String × ℚ) :=
  match landcover_label w.tags with
  | none => totals
  | some label =>
    if isClosedRing (resolvePts nodes w.nodeRefs) then
      if G.isValid { shell := lonLat (resolvePts nodes w.nodeRefs), holes := [] } then
        dictAddTo totals label
          (max 0 (G.polyArea { shell := lonLat (resolvePts nodes w.nodeRefs), holes := [] } *
            (111000 : ℚ) ^ 2 / 1000000))
      else totals
    else totals

/-- Raw per-label area totals of `landcover_mix`, before normalization. -/
def landcover_totals (G : GeometryOracle)
    (outcome : Except String OverpassResult) : List (String × ℚ) :=
  let data := overpass outcome
  let nodes := nodesOf data
  (waysOf data).foldl (lcStep G nodes) initTotals

/-- The function `landcover_mix` of the source: totals normalized to
proportions when any classified area was found (`total_area > 0`). -/
def landcover_mix (G : GeometryOracle)
    (outcome : Except String OverpassResult) : List (String × ℚ) :=
  let totals := landcover_totals G outcome
  let total_area := (totals.map (fun kv => kv.2)).sum
  if 0 < total_area then totals.map (fun kv => (kv.1, kv.2 / total_area))
  else totals

/-- The function `roughness_index`: 0.5 for a falsy (empty) mapping,
otherwise the score-weighted sum with 0.5 as default score for a label
missing from `ROUGHNESS_SCORE`. -/
def roughness_index (mix : List (String × ℚ)) : ℚ :=
  if mix = [] then 0.5
  else (mix.map (fun kp =>
    ((dictGet ROUGHNESS_SCORE kp.1).getD 0.5) * kp.2)).sum

/-- The exact rational value of the binary64 constant `math.pi`
(884279719003555 / 2^48). -/
def mathPi : ℚ := 884279719003555 / 281474976710656

/-- Predicate for counting `el.get("type") == "way"` reply elements. -/
def isWayEl : OsmElement → Bool
  | .way _ => true
  | _ => false

/-- The function `building_density_per_km2`: way count over the circular
area `π (r/1000)²` km², or 0 when that area is not positive. -/
def building_density_per_km2 (outcome : Except String OverpassResult)
    (radius_m : ℚ) : ℚ :=
  let data := overpass outcome
  let count := (data.elements.filter isWayEl).length
  let area_km2 := mathPi * (radius_m / 1000) ^ 2
  if 0 < area_km2 then (count : ℚ) / area_km2 else 0

/-! ### Exposure decision engine -/

/-- Inland limit of `decide_exposure`:
`max(600.0, 20.0 * building_height_ft) * 0.3048` metres. -/
def inland_limit_m_of (building_height_ft : ℚ) : ℚ :=
  max 600 (20 * building_height_ft) * 0.3048

/-- Azimuth of sector `i`: `i * (360.0 / sectors)`. -/
def sectorAz (sectors : ℕ) (i : ℕ) : ℚ :=
  (i : ℚ) * (360 / (sectors : ℚ))

/-- The per-sector D-qualification test of the loop body of
`decide_exposure`: `fetch_m >= 1609.0` and `d_water_m` is defined and
`d_water_m <= inland_limit_m`. -/
def sectorQualD (d_water_m : Option ℚ) (inland_limit_m : ℚ)
    (fetch_m : ℚ) : Bool :=
  if 1609 ≤ fetch_m then
    match d_water_m with
    | some dw => decide (dw ≤ inland_limit_m)
    | none => false
  else false

/-- Notes appended to the rationale trail of `decide_exposure`, abstracted
from their f-string templates to the template identity plus the interpolated
values.  Of the templates, only the D note ("≥1 mile over-water fetch ...")
and the water-distance diagnostic ("Distance to mapped water boundary ...")
speak about water. -/
inductive RationaleNote where
  | exposureD
  | exposureB
  | exposureC
  | waterDistance (d_water_m inland_limit_m : ℚ)
  | densityRoughness (dens r_index : ℚ)
  | landcoverMixNote (mix : List (String × ℚ))
deriving DecidableEq

/-- Whether a rationale note's template mentions water at all (the D note
mentions over-water fetch; the water-distance note mentions the mapped water
boundary; no template speaks of missing water data). -/
def noteMentionsWater : RationaleNote → Bool
  | .exposureD => true
  | .waterDistance _ _ => true
  | _ => false

/-- The category branch of the
`if qualifies_D ... elif dens >= 200 or r_index >= 0.75 ... else ...`
cascade of `decide_exposure`, with `qualifies_D` expressed as the
accumulated OR of the per-sector tests over the fetched sector list. -/
def exposure_category_core (fetches : List ℚ) (d_water_m : Option ℚ)
    (inland_limit_m dens r_index : ℚ) : String :=
  if fetches.any (sectorQualD d_water_m inland_limit_m) then "D"
  else if 200 ≤ dens ∨ (0.75 : ℚ) ≤ r_index then "B" else "C"

/-- The note appended by the branch of the cascade that fired, mirroring
`exposure_category_core` condition for condition (the source sets the
category and appends its note inside the same branch). -/
def exposure_note_core (fetches : List ℚ) (d_water_m : Option ℚ)
    (inland_limit_m dens r_index : ℚ) : RationaleNote :=
  if fetches.any (sectorQualD d_water_m inland_limit_m) then .exposureD
  else if 200 ≤ dens ∨ (0.75 : ℚ) ≤ r_index then .exposureB else .exposureC

/-- The `ExposureResult` record returned by `decide_exposure` (the dict of
the source); `sector_results` pairs are `(azimuth_deg, fetch_m)` after the
source's 1-decimal rounding. -/
structure ExposureResult where
  exposure_category : String
  distance_to_water_boundary_m : Option ℚ
  inland_limit_m : ℚ
  sector_results : List (ℚ × ℚ)
  building_density_per_km2 : ℚ
  roughness_index : ℚ
  landcover_mix : List (String × ℚ)
  notes : List RationaleNote
deriving DecidableEq

/-- The per-sector fetch list gathered by the loop of `decide_exposure`
(empty when `water_polys is None`, since the loop is guarded). -/
def decideFetches (G : GeometryOracle) (waterOut : Except String OverpassResult)
    (lat lon : ℚ) (sectors : ℕ) : List ℚ :=
  match fetch_water_polys G waterOut with
  | none => []
  | some wp =>
    (List.range sectors).map (fun i =>
      sector_over_water_fetch_m G lat lon (sectorAz sectors i) 10000 (some wp))

/-- The `sector_results` list built by the loop of `decide_exposure`:
`{"azimuth_deg": round(az, 1), "fetch_m": round(fetch_m, 1)}` per sector,
empty when the topology is absent. -/
def decideSectorResults (G : GeometryOracle)
    (waterOut : Except String OverpassResult)
    (lat lon : ℚ) (sectors : ℕ) : List (ℚ × ℚ) :=
  match fetch_water_polys G waterOut with
  | none => []
  | some wp =>
    (List.range sectors).map (fun i =>
      (pyRound (sectorAz sectors i) 1,
       pyRound (sector_over_water_fetch_m G lat lon (sectorAz sectors i)
         10000 (some wp)) 1))

/-- The derived water-boundary distance of `decide_exposure` (unrounded). -/
def decideDWater (G : GeometryOracle) (waterOut : Except String OverpassResult)
    (lat lon : ℚ) : Option ℚ :=
  distance_to_water_boundary_m G lat lon (fetch_water_polys G waterOut)

/-- The function `decide_exposure` of the source.  The three Overpass calls
(water polygons at 80 km, building density at 800 m, land cover at 800 m)
are abstracted to their transport outcomes; the sector loop runs only when
`water_polys is not None` (see `decideFetches` / `decideSectorResults`), so
an absent topology yields an empty `sector_results` list and
`qualifies_D = False`. -/
def decide_exposure (G : GeometryOracle)
    (waterOut densOut mixOut : Except String OverpassResult)
    (lat lon building_height_ft : ℚ) (sectors : ℕ) : ExposureResult :=
  { exposure_category :=
      exposure_category_core (decideFetches G waterOut lat lon sectors)
        (decideDWater G waterOut lat lon) (inland_limit_m_of building_height_ft)
        (building_density_per_km2 densOut 800)
        (roughness_index (landcover_mix G mixOut))
    distance_to_water_boundary_m :=
      (decideDWater G waterOut lat lon).map (fun dw => pyRound dw 1)
    inland_limit_m := pyRound (inland_limit_m_of building_height_ft) 1
    sector_results := decideSectorResults G waterOut lat lon sectors
    building_density_per_km2 := pyRound (building_density_per_km2 densOut 800) 1
    roughness_index := pyRound (roughness_index (landcover_mix G mixOut)) 2
    landcover_mix := landcover_mix G mixOut
    notes :=
      [exposure_note_core (decideFetches G waterOut lat lon sectors)
          (decideDWater G waterOut lat lon) (inland_limit_m_of building_height_ft)
          (building_density_per_km2 densOut 800)
          (roughness_index (landcover_mix G mixOut))] ++
      (match decideDWater G waterOut lat lon with
       | some dw => [.waterDistance dw (inland_limit_m_of building_height_ft)]
       | none => []) ++
      [.densityRoughness (building_density_per_km2 densOut 800)
        (roughness_index (landcover_mix G mixOut))] ++
      (if landcover_mix G mixOut ≠ [] then
        [.landcoverMixNote (landcover_mix G mixOut)]
      else []) }

/-! ### Concrete fixtures for witnesses and counterexamples -/

/-- Test oracle: every polygon valid and non-empty, every probed point over
water, boundary distance 1/1000 degree (i.e. 111 m after scaling), union the
identity, destination point a simple eastward offset. -/
def waterOracle : GeometryOracle :=
  { isValid := fun _ => true
    isEmpty := fun _ => false
    polyArea := fun _ => 1
    mpContains := fun _ _ => true
    mpBoundaryDist := fun _ _ => 1/1000
    unionPolys := fun l => l
    destPoint := fun lat lon _ d => (lat, lon + d / 111000) }

/-- Test oracle for a site with no over-water step: like `waterOracle` but
containment always fails. -/
def dryOracle : GeometryOracle :=
  { waterOracle with mpContains := fun _ _ => false }

/-- A failed Overpass transport outcome. -/
def errOut : Except String OverpassResult := .error "overpass timeout"

/-- A successful Overpass reply with no elements. -/
def emptyOut : Except String OverpassResult := .ok { elements := [] }

/-- A successful water reply holding one closed way of four resolved
points. -/
def waterElems : OverpassResult :=
  { elements :=
      [.node { id := 1, lat := 0, lon := 0 },
       .node { id := 2, lat := 0, lon := 1 },
       .node { id := 3, lat := 1, lon := 0 },
       .way { id := 10, nodeRefs := [1, 2, 3, 1],
              tags := [("natural", "water")] }] }

/-- Transport outcome delivering `waterElems`. -/
def okWaterOut : Except String OverpassResult := .ok waterElems

/-- A multipolygon relation with two outer rings and one inner ring. -/
def relFixture : OsmRelation :=
  { id := 20, tags := [("type", "multipolygon")],
    members :=
      [{ mtype := "way", ref := 11, role := "outer" },
       { mtype := "way", ref := 12, role := "outer" },
       { mtype := "way", ref := 13, role := "inner" }] }

/-- A multipolygon relation reply with two outer rings and one inner
ring, all closed. -/
def relElems : OverpassResult :=
  { elements :=
      [.node { id := 1, lat := 0, lon := 0 },
       .node { id := 2, lat := 0, lon := 10 },
       .node { id := 3, lat := 10, lon := 0 },
       .node { id := 4, lat := 20, lon := 20 },
       .node { id := 5, lat := 20, lon := 30 },
       .node { id := 6, lat := 30, lon := 20 },
       .node { id := 7, lat := 1, lon := 1 },
       .node { id := 8, lat := 1, lon := 2 },
       .node { id := 9, lat := 2, lon := 1 },
       .way { id := 11, nodeRefs := [1, 2, 3, 1], tags := [] },
       .way { id := 12, nodeRefs := [4, 5, 6, 4], tags := [] },
       .way { id := 13, nodeRefs := [7, 8, 9, 7], tags := [] },
       .relation relFixture] }

/-- The first outer ring of `relElems` in `(lon, lat)` order. -/
def relOuter1 : List (ℚ × ℚ) := [(0, 0), (10, 0), (0, 10), (0, 0)]

/-- The second outer ring of `relElems` in `(lon, lat)` order. -/
def relOuter2 : List (ℚ × ℚ) := [(20, 20), (30, 20), (20, 30), (20, 20)]

/-- The inner ring of `relElems` in `(lon, lat)` order. -/
def relInner1 : List (ℚ × ℚ) := [(1, 1), (2, 1), (1, 2), (1, 1)]

/-- A land-cover reply with a single closed residential way. -/
def lcElems : OverpassResult :=
  { elements :=
      [.node { id := 1, lat := 0, lon := 0 },
       .node { id := 2, lat := 0, lon := 1 },
       .node { id := 3, lat := 1, lon := 0 },
       .way { id := 30, nodeRefs := [1, 2, 3, 1],
              tags := [("landuse", "residential")] }] }

/-- Transport outcome delivering `lcElems`. -/
def okLcOut : Except String OverpassResult := .ok lcElems

/-- A building reply holding one way element. -/
def bldgElems : OverpassResult :=
  { elements := [.way { id := 40, nodeRefs := [], tags := [("building", "yes")] }] }

/-- Transport outcome delivering `bldgElems`. -/
def okBldgOut : Except String OverpassResult := .ok bldgElems

/-- A concrete simple polygon used to instantiate general sector-fetch
statements. -/
def testPoly : SPolygon :=
  { shell := [(0, 0), (1, 0), (0, 1), (0, 0)], holes := [] }

/-! ### Rounding lemmas -/

theorem roundHalfEven_intCast (n : ℤ) : roundHalfEven ((n : ℚ)) = n := by
  simp [roundHalfEven]

theorem pyRound_natMul200 (k : ℕ) :
    pyRound ((k : ℚ) * 200) 1 = (k : ℚ) * 200 := by
  have h : ((k : ℚ) * 200) * (10 : ℚ) ^ 1 = ((k * 2000 : ℤ) : ℚ) := by
    push_cast
    ring
  rw [pyRound, h, roundHalfEven_intCast]
  push_cast
  ring

/-! ### Fetch-scan lemmas -/

theorem fetchGo_spec (c : ℕ → Bool) :
    ∀ (n s : ℕ) (acc : ℚ), ∃ j : ℕ, j ≤ n ∧
      fetchGo c s n acc = (if j = 0 then acc else ((s + j - 1 : ℕ) : ℚ) * 200) ∧
      (∀ i : ℕ, s ≤ i → i < s + j → c i = true) ∧
      (j < n → c (s + j) = false) := by
  intro n
  induction n with
  | zero =>
    intro s acc
    exact ⟨0, le_rfl, by simp [fetchGo], by omega, by omega⟩
  | succ m ih =>
    intro s acc
    by_cases hcs : c s = true
    · obtain ⟨j, hjle, heq, hall, hbreak⟩ := ih (s + 1) ((s : ℚ) * 200)
      refine ⟨j + 1, by omega, ?_, ?_, ?_⟩
      · rw [fetchGo, if_pos hcs, heq]
        by_cases hj : j = 0
        · subst hj
          simp
        · rw [if_neg hj, if_neg (by omega)]
          congr 2
          omega
      · intro i hsi hlt
        rcases Nat.eq_or_lt_of_le hsi with h | h
        · exact h ▸ hcs
        · exact hall i (by omega) (by omega)
      · intro hlt
        have : c (s + 1 + j) = false := hbreak (by omega)
        have harr : s + (j + 1) = s + 1 + j := by omega
        rw [harr]
        exact this
    · refine ⟨0, by omega, ?_, by omega, ?_⟩
      · rw [fetchGo, if_neg hcs]
        simp
      · intro _
        simpa using hcs

theorem fetchGo_const_true (c : ℕ → Bool) (hc : ∀ i, c i = true) :
    ∀ (n s : ℕ) (acc : ℚ),
      fetchGo c s n acc = (if n = 0 then acc else ((s + n - 1 : ℕ) : ℚ) * 200) := by
  intro n
  induction n with
  | zero => intro s acc; simp [fetchGo]
  | succ m ih =>
    intro s acc
    rw [fetchGo, if_pos (hc s), ih]
    by_cases hm : m = 0
    · subst hm
      simp
    · rw [if_neg hm, if_neg (by omega)]
      congr 2
      omega

theorem sector_fetch_eq_mul200 (G : GeometryOracle)
    (lat lon az mc : ℚ) (wp : Option (List SPolygon)) :
    ∃ k : ℕ, sector_over_water_fetch_m G lat lon az mc wp = (k : ℚ) * 200 := by
  match wp with
  | none => exact ⟨0, by simp [sector_over_water_fetch_m]⟩
  | some w =>
    rw [sector_over_water_fetch_m]
    by_cases hw : w.isEmpty
    · exact ⟨0, by simp [hw]⟩
    · rw [if_neg hw]
      obtain ⟨j, _, heq, _, _⟩ :=
        fetchGo_spec (stepContains G lat lon az w) (numSteps mc) 1 0
      by_cases hj : j = 0
      · exact ⟨0, by simp [heq, hj]⟩
      · exact ⟨1 + j - 1, by rw [heq, if_neg hj]⟩

/-! ### Decision-cascade lemmas -/

theorem sectorQualD_eq_true_iff (dw : Option ℚ) (limit f : ℚ) :
    sectorQualD dw limit f = true ↔
      1609 ≤ f ∧ ∃ d, dw = some d ∧ d ≤ limit := by
  rw [sectorQualD.eq_def]
  by_cases hf : 1609 ≤ f
  · rw [if_pos hf]
    match dw with
    | some d => simp [hf]
    | none => simp [hf]
  · rw [if_neg hf]
    simp [hf]

theorem exposure_category_core_D_iff (fetches : List ℚ) (dw : Option ℚ)
    (limit dens r : ℚ) :
    exposure_category_core fetches dw limit dens r = "D" ↔
      fetches.any (sectorQualD dw limit) = true := by
  rw [exposure_category_core]
  by_cases h : fetches.any (sectorQualD dw limit) = true
  · simp [h]
  · rw [if_neg h]
    by_cases h2 : 200 ≤ dens ∨ (0.75 : ℚ) ≤ r
    · simp [h2, h]
    · simp [h2, h]

theorem exposure_category_core_not_D (fetches : List ℚ) (dw : Option ℚ)
    (limit dens r : ℚ)
    (h : fetches.any (sectorQualD dw limit) = false) :
    exposure_category_core fetches dw limit dens r =
      (if 200 ≤ dens ∨ (0.75 : ℚ) ≤ r then "B" else "C") := by
  rw [exposure_category_core, if_neg (by simp [h])]

theorem exposure_category_core_B_or_C (fetches : List ℚ) (dw : Option ℚ)
    (limit dens r : ℚ)
    (h : fetches.any (sectorQualD dw limit) = false) :
    exposure_category_core fetches dw limit dens r = "B" ∨
      exposure_category_core fetches dw limit dens r = "C" := by
  rw [exposure_category_core_not_D _ _ _ _ _ h]
  by_cases h2 : 200 ≤ dens ∨ (0.75 : ℚ) ≤ r
  · left; simp [h2]
  · right; simp [h2]

/-! ### Land-cover accumulation lemmas -/

theorem list_sum_div (l : List ℚ) (c : ℚ) :
    (l.map (fun x => x / c)).sum = l.sum / c := by
  induction l with
  | nil => simp
  | cons x xs ih => simp [ih, add_div]

theorem dictAddTo_fst (l : List (String × ℚ)) (k : String) (v : ℚ) :
    (dictAddTo l k v).map Prod.fst = l.map Prod.fst := by
  induction l with
  | nil => simp [dictAddTo]
  | cons x xs ih =>
    simp only [dictAddTo, List.map_cons] at ih ⊢
    by_cases h : x.1 = k
    · simp [h, ih]
    · simp [h, ih]

theorem dictAddTo_nonneg (l : List (String × ℚ)) (k : String) (v : ℚ)
    (hl : ∀ kv ∈ l, 0 ≤ kv.2) (hv : 0 ≤ v) :
    ∀ kv ∈ dictAddTo l k v, 0 ≤ kv.2 := by
  intro kv hkv
  rw [dictAddTo] at hkv
  obtain ⟨ab, hab, heq⟩ := List.mem_map.mp hkv
  by_cases h : ab.1 = k
  · rw [if_pos h] at heq
    have := hl ab hab
    rw [← heq]
    exact add_nonneg this hv
  · rw [if_neg h] at heq
    rw [← heq]
    exact hl ab hab

theorem lcStep_fst (G : GeometryOracle) (nodes : List (ℤ × (ℚ × ℚ)))
    (totals : List (String × ℚ)) (w : OsmWay) :
    (lcStep G nodes totals w).map Prod.fst = totals.map Prod.fst := by
  rw [lcStep.eq_def]
  split
  · rfl
  · split
    · split
      · exact dictAddTo_fst _ _ _
      · rfl
    · rfl

theorem lcStep_nonneg (G : GeometryOracle) (nodes : List (ℤ × (ℚ × ℚ)))
    (totals : List (String × ℚ)) (w : OsmWay)
    (h : ∀ kv ∈ totals, 0 ≤ kv.2) :
    ∀ kv ∈ lcStep G nodes totals w, 0 ≤ kv.2 := by
  rw [lcStep.eq_def]
  split
  · exact h
  · split
    · split
      · exact dictAddTo_nonneg _ _ _ h (le_max_left _ _)
      · exact h
    · exact h

theorem foldl_lcStep_fst (G : GeometryOracle) (nodes : List (ℤ × (ℚ × ℚ))) :
    ∀ (ws : List OsmWay) (totals : List (String × ℚ)),
      ((ws.foldl (lcStep G nodes) totals).map Prod.fst) = totals.map Prod.fst := by
  intro ws
  induction ws with
  | nil => intro totals; rfl
  | cons w rest ih =>
    intro totals
    rw [List.foldl_cons, ih, lcStep_fst]

theorem foldl_lcStep_nonneg (G : GeometryOracle) (nodes : List (ℤ × (ℚ × ℚ))) :
    ∀ (ws : List OsmWay) (totals : List (String × ℚ)),
      (∀ kv ∈ totals, 0 ≤ kv.2) →
      ∀ kv ∈ ws.foldl (lcStep G nodes) totals, 0 ≤ kv.2 := by
  intro ws
  induction ws with
  | nil => intro totals h; exact h
  | cons w rest ih =>
    intro totals h
    rw [List.foldl_cons]
    exact ih _ (lcStep_nonneg G nodes totals w h)

theorem initTotals_eval :
    initTotals = [("forest", 0), ("farmland", 0), ("meadow", 0),
      ("residential", 0), ("industrial", 0), ("commercial", 0)] := by
  simp [initTotals, LANDCOVER_TAGS, dictSet, String.reduceEq, String.reduceBEq]

theorem landcover_totals_fst (G : GeometryOracle)
    (o : Except String OverpassResult) :
    (landcover_totals G o).map Prod.fst =
      ["forest", "farmland", "meadow", "residential", "industrial", "commercial"] := by
  rw [landcover_totals, foldl_lcStep_fst, initTotals_eval]
  rfl

theorem landcover_totals_nonneg (G : GeometryOracle)
    (o : Except String OverpassResult) :
    ∀ kv ∈ landcover_totals G o, 0 ≤ kv.2 := by
  rw [landcover_totals]
  refine foldl_lcStep_nonneg _ _ _ _ ?_
  rw [initTotals_eval]
  intro kv hkv
  fin_cases hkv <;> norm_num

theorem landcover_mix_fst (G : GeometryOracle)
    (o : Except String OverpassResult) :
    (landcover_mix G o).map Prod.fst =
      ["forest", "farmland", "meadow", "residential", "industrial", "commercial"] := by
  rw [landcover_mix]
  by_cases h : 0 < ((landcover_totals G o).map (fun kv => kv.2)).sum
  · rw [if_pos h, List.map_map]
    have : (Prod.fst ∘ fun kv : String × ℚ =>
        (kv.1, kv.2 / ((landcover_totals G o).map (fun kv => kv.2)).sum)) = Prod.fst := by
      funext kv
      rfl
    rw [this, landcover_totals_fst]
  · rw [if_neg h]
    exact landcover_totals_fst G o

theorem landcover_mix_ne_nil (G : GeometryOracle)
    (o : Except String OverpassResult) :
    landcover_mix G o ≠ [] := by
  intro h
  have := landcover_mix_fst G o
  rw [h] at this
  simp at this

theorem landcover_mix_nonneg (G : GeometryOracle)
    (o : Except String OverpassResult) :
    ∀ kv ∈ landcover_mix G o, 0 ≤ kv.2 := by
  rw [landcover_mix]
  by_cases h : 0 < ((landcover_totals G o).map (fun kv => kv.2)).sum
  · rw [if_pos h]
    intro kv hkv
    obtain ⟨ab, hab, heq⟩ := List.mem_map.mp hkv
    rw [← heq]
    exact div_nonneg (landcover_totals_nonneg G o ab hab) (le_of_lt h)
  · rw [if_neg h]
    exact landcover_totals_nonneg G o

theorem landcover_mix_sum_one (G : GeometryOracle)
    (o : Except String OverpassResult)
    (h : 0 < ((landcover_totals G o).map (fun kv => kv.2)).sum) :
    ((landcover_mix G o).map (fun kv => kv.2)).sum = 1 := by
  rw [landcover_mix, if_pos h, List.map_map]
  have : ((fun kv : String × ℚ => kv.2) ∘ fun kv : String × ℚ =>
      (kv.1, kv.2 / ((landcover_totals G o).map (fun kv => kv.2)).sum)) =
      (fun x : String × ℚ => x.2 / ((landcover_totals G o).map (fun kv => kv.2)).sum) := by
    funext kv
    rfl
  rw [this]
  have hmm := list_sum_div ((landcover_totals G o).map (fun kv => kv.2))
    (((landcover_totals G o).map (fun kv => kv.2)).sum)
  rw [List.map_map] at hmm
  have hcomp : ((fun x : ℚ => x / ((landcover_totals G o).map (fun kv => kv.2)).sum) ∘
      fun kv : String × ℚ => kv.2) =
      (fun x : String × ℚ => x.2 / ((landcover_totals G o).map (fun kv => kv.2)).sum) := by
    funext kv
    rfl
  rw [hcomp] at hmm
  rw [hmm, div_self (ne_of_gt h)]

theorem list_sum_zero_of_nonneg (l : List ℚ) (h : ∀ x ∈ l, 0 ≤ x)
    (hs : l.sum ≤ 0) : ∀ x ∈ l, x = 0 := by
  induction l with
  | nil => simp
  | cons a as ih =>
    have ha : 0 ≤ a := h a (by simp)
    have has : 0 ≤ as.sum := List.sum_nonneg (fun x hx => h x (by simp [hx]))
    rw [List.sum_cons] at hs
    intro x hx
    rcases List.mem_cons.mp hx with h1 | h2
    · subst h1
      linarith
    · exact ih (fun y hy => h y (by simp [hy])) (by linarith) x h2

theorem landcover_mix_all_zero (G : GeometryOracle)
    (o : Except String OverpassResult)
    (h : ¬ 0 < ((landcover_totals G o).map (fun kv => kv.2)).sum) :
    ∀ kv ∈ landcover_mix G o, kv.2 = 0 := by
  rw [landcover_mix, if_neg h]
  intro kv hkv
  have := list_sum_zero_of_nonneg ((landcover_totals G o).map (fun kv => kv.2))
    (by
      intro x hx
      obtain ⟨ab, hab, heq⟩ := List.mem_map.mp hx
      rw [← heq]
      exact landcover_totals_nonneg G o ab hab)
    (le_of_not_lt h)
  exact this kv.2 (List.mem_map.mpr ⟨kv, hkv, rfl⟩)

theorem roughness_index_of_all_zero (mix : List (String × ℚ))
    (hne : mix ≠ []) (h : ∀ kv ∈ mix, kv.2 = 0) :
    roughness_index mix = 0 := by
  rw [roughness_index, if_neg hne]
  refine List.sum_eq_zero ?_
  intro x hx
  obtain ⟨ab, hab, heq⟩ := List.mem_map.mp hx
  rw [← heq, h ab hab, mul_zero]

/-! ### Relation-assembly lemmas -/

theorem mkRelPoly_eq (inners : List (List (ℚ × ℚ))) (outer : List (ℚ × ℚ)) :
    mkRelPoly inners outer = { shell := outer, holes := inners } := by
  rw [mkRelPoly]
  by_cases h : inners = []
  · subst h
    simp
  · simp [h]

theorem foldl_keep_mem {α β : Type} (f : α → β) (c : α → Bool) :
    ∀ (l : List α) (acc : List β),
      ∀ p ∈ l.foldl (fun ps o => if c o then ps ++ [f o] else ps) acc,
        p ∈ acc ∨ ∃ o ∈ l, p = f o := by
  intro l
  induction l with
  | nil => intro acc p hp; exact Or.inl hp
  | cons x xs ih =>
    intro acc p hp
    rw [List.foldl_cons] at hp
    rcases ih _ p hp with h | ⟨o, ho, rfl⟩
    · by_cases hc : c x = true
      · rw [if_pos hc] at h
        rcases List.mem_append.mp h with h1 | h2
        · exact Or.inl h1
        · exact Or.inr ⟨x, by simp, by simpa using h2⟩
      · rw [if_neg hc] at h
        exact Or.inl h
    · exact Or.inr ⟨o, by simp [ho], rfl⟩

theorem foldl_keep_all {α β : Type} (f : α → β) (c : α → Bool)
    (hc : ∀ o, c o = true) :
    ∀ (l : List α) (acc : List β),
      l.foldl (fun ps o => if c o then ps ++ [f o] else ps) acc =
        acc ++ l.map f := by
  intro l
  induction l with
  | nil => intro acc; simp
  | cons x xs ih =>
    intro acc
    rw [List.foldl_cons, if_pos (hc x), ih]
    simp

theorem relPolys_mem (G : GeometryOracle) (nodes : List (ℤ × (ℚ × ℚ)))
    (ways : List OsmWay) (r : OsmRelation) :
    ∀ p ∈ relPolys G nodes ways r,
      p.shell ∈ (relRings nodes ways r).1 ∧
        p.holes = (relRings nodes ways r).2 := by
  intro p hp
  rw [relPolys] at hp
  by_cases ht : relTypeOk r = true
  · rw [if_neg (by simp [ht])] at hp
    rcases foldl_keep_mem (mkRelPoly (relRings nodes ways r).2)
        (fun outer => G.isValid (mkRelPoly (relRings nodes ways r).2 outer) &&
          !G.isEmpty (mkRelPoly (relRings nodes ways r).2 outer))
        (relRings nodes ways r).1 [] p hp with h | ⟨o, ho, rfl⟩
    · simp at h
    · rw [mkRelPoly_eq]
      exact ⟨ho, rfl⟩
  · rw [if_pos (by simpa using ht)] at hp
    simp at hp

theorem relPolys_all_valid (G : GeometryOracle) (nodes : List (ℤ × (ℚ × ℚ)))
    (ways : List OsmWay) (r : OsmRelation)
    (hv : ∀ poly, G.isValid poly = true)
    (he : ∀ poly, G.isEmpty poly = false)
    (ht : relTypeOk r = true) :
    (relPolys G nodes ways r).map SPolygon.shell = (relRings nodes ways r).1 := by
  rw [relPolys, if_neg (by simp [ht]),
    foldl_keep_all (mkRelPoly (relRings nodes ways r).2)
      (fun outer => G.isValid (mkRelPoly (relRings nodes ways r).2 outer) &&
        !G.isEmpty (mkRelPoly (relRings nodes ways r).2 outer))
      (fun o => by simp [hv, he])]
  rw [List.nil_append, List.map_map]
  have : (SPolygon.shell ∘ mkRelPoly (relRings nodes ways r).2) = fun o => o := by
    funext o
    simp [mkRelPoly_eq]
  rw [this]
  exact List.map_id _

/-! ### Fail-open lemmas -/

theorem overpass_error (e : String) :
    overpass (.error e) = { elements := [] } := rfl

theorem fetch_water_polys_error (G : GeometryOracle) (e : String) :
    fetch_water_polys G (.error e) = none := by
  simp [fetch_water_polys, overpass, nodesOf, waysOf, relsOf, waysPolys]

theorem decideFetches_error (G : GeometryOracle) (e : String)
    (lat lon : ℚ) (sectors : ℕ) :
    decideFetches G (.error e) lat lon sectors = [] := by
  rw [decideFetches, fetch_water_polys_error]

theorem decideSectorResults_error (G : GeometryOracle) (e : String)
    (lat lon : ℚ) (sectors : ℕ) :
    decideSectorResults G (.error e) lat lon sectors = [] := by
  rw [decideSectorResults, fetch_water_polys_error]

theorem decideDWater_error (G : GeometryOracle) (e : String) (lat lon : ℚ) :
    decideDWater G (.error e) lat lon = none := by
  rw [decideDWater, fetch_water_polys_error]
  rfl

/-! ### Sector-result / fetch correspondence -/

theorem pyRound_sector_fetch (G : GeometryOracle) (lat lon az mc : ℚ)
    (wp : Option (List SPolygon)) :
    pyRound (sector_over_water_fetch_m G lat lon az mc wp) 1 =
      sector_over_water_fetch_m G lat lon az mc wp := by
  obtain ⟨k, hk⟩ := sector_fetch_eq_mul200 G lat lon az mc wp
  rw [hk, pyRound_natMul200]

theorem decideFetches_eq_map_snd (G : GeometryOracle)
    (waterOut : Except String OverpassResult) (lat lon : ℚ) (sectors : ℕ) :
    decideFetches G waterOut lat lon sectors =
      (decideSectorResults G waterOut lat lon sectors).map Prod.snd := by
  rw [decideFetches, decideSectorResults]
  cases fetch_water_polys G waterOut with
  | none => rfl
  | some wp =>
    rw [List.map_map]
    refine List.map_congr_left ?_
    intro i _
    simp [pyRound_sector_fetch]

theorem exists_mem_map_iff {α β : Type} (l : List α) (g : α → β)
    (P : β → Prop) : (∃ y ∈ l.map g, P y) ↔ ∃ x ∈ l, P (g x) := by
  constructor
  · rintro ⟨y, hy, hPy⟩
    obtain ⟨x, hx, rfl⟩ := List.mem_map.mp hy
    exact ⟨x, hx, hPy⟩
  · rintro ⟨x, hx, hPx⟩
    exact ⟨g x, List.mem_map.mpr ⟨x, hx, rfl⟩, hPx⟩

/-! ### Claim C1 -/

/-- C1: for every analysis input, the exposure category is D if and only if
some sector-result entry has fetch at least 1609 m while the water-boundary
distance is defined and at most the inland limit (both inclusive); and when
no sector qualifies, the category follows the density/roughness B-vs-C rule
instead. -/
theorem c1_category_D_iff (G : GeometryOracle)
    (wOut dOut mOut : Except String OverpassResult)
    (lat lon h : ℚ) (sectors : ℕ) :
    ((decide_exposure G wOut dOut mOut lat lon h sectors).exposure_category = "D" ↔
      ∃ p ∈ (decide_exposure G wOut dOut mOut lat lon h sectors).sector_results,
        1609 ≤ p.2 ∧
        ∃ dw, decideDWater G wOut lat lon = some dw ∧ dw ≤ inland_limit_m_of h) ∧
    ((decide_exposure G wOut dOut mOut lat lon h sectors).exposure_category ≠ "D" →
      (decide_exposure G wOut dOut mOut lat lon h sectors).exposure_category =
        (if 200 ≤ building_density_per_km2 dOut 800 ∨
            (0.75 : ℚ) ≤ roughness_index (landcover_mix G mOut)
         then "B" else "C")) := by
  have hcat : (decide_exposure G wOut dOut mOut lat lon h sectors).exposure_category =
      exposure_category_core (decideFetches G wOut lat lon sectors)
        (decideDWater G wOut lat lon) (inland_limit_m_of h)
        (building_density_per_km2 dOut 800)
        (roughness_index (landcover_mix G mOut)) := rfl
  have hsr : (decide_exposure G wOut dOut mOut lat lon h sectors).sector_results =
      decideSectorResults G wOut lat lon sectors := rfl
  constructor
  · rw [hcat, hsr, exposure_category_core_D_iff, List.any_eq_true,
      decideFetches_eq_map_snd, exists_mem_map_iff]
    refine exists_congr fun p => and_congr_right fun _ => ?_
    exact sectorQualD_eq_true_iff _ _ _
  · intro hne
    rw [hcat] at hne ⊢
    have hany : (decideFetches G wOut lat lon sectors).any
        (sectorQualD (decideDWater G wOut lat lon) (inland_limit_m_of h)) = false := by
      by_contra hc
      have := (exposure_category_core_D_iff (decideFetches G wOut lat lon sectors)
        (decideDWater G wOut lat lon) (inland_limit_m_of h)
        (building_density_per_km2 dOut 800)
        (roughness_index (landcover_mix G mOut))).mpr (by simpa using hc)
      exact hne this
    exact exposure_category_core_not_D _ _ _ _ _ hany

/-! ### Claim C8 -/

/-- C8: the inland limit computed by `decide_exposure` equals
`max(600 ft, 20 × height_ft)` converted to metres by the 0.3048 factor; the
reported field carries the source's one-decimal rounding of that value. -/
theorem c8_inland_limit (G : GeometryOracle)
    (wOut dOut mOut : Except String OverpassResult)
    (lat lon h : ℚ) (sectors : ℕ) :
    (decide_exposure G wOut dOut mOut lat lon h sectors).inland_limit_m =
      pyRound (max 600 (20 * h) * 0.3048) 1 ∧
    inland_limit_m_of h = max 600 (20 * h) * 0.3048 ∧
    (20 * h ≤ 600 → inland_limit_m_of h = 600 * 0.3048) ∧
    (600 ≤ 20 * h → inland_limit_m_of h = 20 * h * 0.3048) := by
  refine ⟨rfl, rfl, ?_, ?_⟩
  · intro hle
    rw [inland_limit_m_of, max_eq_left hle]
  · intro hge
    rw [inland_limit_m_of, max_eq_right hge]

/-- Witness for C8 at concrete heights 10 ft and 50 ft. -/
theorem c8_inland_limit_witness :
    inland_limit_m_of 10 = 600 * 0.3048 ∧
    inland_limit_m_of 50 = 20 * 50 * 0.3048 :=
  ⟨(c8_inland_limit waterOracle errOut errOut errOut 0 0 10 16).2.2.1 (by norm_num),
   (c8_inland_limit waterOracle errOut errOut errOut 0 0 50 16).2.2.2 (by norm_num)⟩

/-! ### Claim C9 -/

/-- C9: if the decision cascade yields D through a defined water-boundary
distance, then lowering the inland limit strictly below that distance —
holding the sector fetches, water distance, density and roughness fixed —
yields a category other than D. -/
theorem c9_inland_limit_monotonic (fetches : List ℚ) (dw limit limit2 dens r : ℚ)
    (_hD : exposure_category_core fetches (some dw) limit dens r = "D")
    (hlt : limit2 < dw) :
    exposure_category_core fetches (some dw) limit2 dens r ≠ "D" := by
  intro hD2
  rw [exposure_category_core_D_iff, List.any_eq_true] at hD2
  obtain ⟨f, _, hq⟩ := hD2
  obtain ⟨_, d, hd, hdle⟩ := (sectorQualD_eq_true_iff _ _ _).mp hq
  rw [Option.some_inj] at hd
  subst hd
  exact absurd hdle (not_le.mpr hlt)

/-- Witness for C9: a single 1800 m fetch with water distance 100 m
qualifies D under limit 200 m and loses D under limit 50 m. -/
theorem c9_inland_limit_monotonic_witness :
    exposure_category_core [1800] (some 100) 50 0 0 ≠ "D" :=
  c9_inland_limit_monotonic [1800] 100 200 50 0 0
    (by
      rw [exposure_category_core,
        if_pos (by simp [sectorQualD]; norm_num)]
    )
    (by norm_num)

/-! ### Claim C3 -/

/-- C3: the per-sector fetch is 0 when the topology is absent (or empty),
and otherwise equals the distance at the last 200 m step of the initial
contiguous run of over-water steps: 0 when the first step is on land, every
step up to the run's end over water, and the scan stopped at the first
non-containing step, so water beyond a gap is never counted. -/
theorem c3_sector_fetch_contiguous (G : GeometryOracle) (lat lon az mc : ℚ) :
    sector_over_water_fetch_m G lat lon az mc none = 0 ∧
    sector_over_water_fetch_m G lat lon az mc (some []) = 0 ∧
    ∀ w : List SPolygon, w ≠ [] →
      ∃ k : ℕ, k ≤ numSteps mc ∧
        sector_over_water_fetch_m G lat lon az mc (some w) = (k : ℚ) * 200 ∧
        (stepContains G lat lon az w 1 = false →
          sector_over_water_fetch_m G lat lon az mc (some w) = 0) ∧
        (∀ i : ℕ, 1 ≤ i → i ≤ k → stepContains G lat lon az w i = true) ∧
        (k < numSteps mc → stepContains G lat lon az w (k + 1) = false) := by
  refine ⟨rfl, by simp [sector_over_water_fetch_m], ?_⟩
  intro w hw
  have hne : w.isEmpty = false := by simpa using hw
  have hfetch : sector_over_water_fetch_m G lat lon az mc (some w) =
      fetchGo (stepContains G lat lon az w) 1 (numSteps mc) 0 := by
    simp [sector_over_water_fetch_m, hne]
  obtain ⟨j, hjle, heq, hall, hbreak⟩ :=
    fetchGo_spec (stepContains G lat lon az w) (numSteps mc) 1 0
  have hval : sector_over_water_fetch_m G lat lon az mc (some w) = (j : ℚ) * 200 := by
    rw [hfetch, heq]
    by_cases hj : j = 0
    · subst hj
      simp
    · rw [if_neg hj]
      congr 1
      push_cast [Nat.add_sub_cancel_left]
      norm_num
  refine ⟨j, hjle, hval, ?_, ?_, ?_⟩
  · intro h1
    rcases Nat.eq_zero_or_pos j with hj | hj
    · rw [hval, hj]
      norm_num
    · have := hall 1 le_rfl (by omega)
      rw [this] at h1
      exact absurd h1 (by simp)
  · intro i h1 hik
    exact hall i h1 (by omega)
  · intro hk
    have := hbreak hk
    rwa [Nat.add_comm] at this

/-- Witness for C3 at a concrete oracle, site and one-polygon topology. -/
theorem c3_sector_fetch_contiguous_witness :
    sector_over_water_fetch_m waterOracle 0 0 0 10000 none = 0 ∧
    sector_over_water_fetch_m waterOracle 0 0 0 10000 (some []) = 0 ∧
    ∃ k : ℕ, k ≤ numSteps 10000 ∧
      sector_over_water_fetch_m waterOracle 0 0 0 10000 (some [testPoly]) =
        (k : ℚ) * 200 ∧
      (stepContains waterOracle 0 0 0 [testPoly] 1 = false →
        sector_over_water_fetch_m waterOracle 0 0 0 10000 (some [testPoly]) = 0) ∧
      (∀ i : ℕ, 1 ≤ i → i ≤ k → stepContains waterOracle 0 0 0 [testPoly] i = true) ∧
      (k < numSteps 10000 → stepContains waterOracle 0 0 0 [testPoly] (k + 1) = false) :=
  ⟨(c3_sector_fetch_contiguous waterOracle 0 0 0 10000).1,
   (c3_sector_fetch_contiguous waterOracle 0 0 0 10000).2.1,
   (c3_sector_fetch_contiguous waterOracle 0 0 0 10000).2.2 [testPoly] (by simp)⟩

/-! ### Evaluation of the all-error analysis -/

theorem building_density_error_800 (e : String) :
    building_density_per_km2 (.error e) 800 = 0 := by
  rw [building_density_per_km2]
  norm_num [overpass, List.filter, mathPi]

theorem landcover_totals_no_ways (G : GeometryOracle)
    (o : Except String OverpassResult) (h : waysOf (overpass o) = []) :
    landcover_totals G o = initTotals := by
  simp only [landcover_totals, h]
  rfl

theorem landcover_mix_no_ways (G : GeometryOracle)
    (o : Except String OverpassResult) (h : waysOf (overpass o) = []) :
    landcover_mix G o = [("forest", 0), ("farmland", 0), ("meadow", 0),
      ("residential", 0), ("industrial", 0), ("commercial", 0)] := by
  rw [landcover_mix, landcover_totals_no_ways G o h, initTotals_eval]
  norm_num

theorem roughness_index_no_ways (G : GeometryOracle)
    (o : Except String OverpassResult) (h : waysOf (overpass o) = []) :
    roughness_index (landcover_mix G o) = 0 := by
  refine roughness_index_of_all_zero _ (landcover_mix_ne_nil G o) ?_
  rw [landcover_mix_no_ways G o h]
  intro kv hkv
  fin_cases hkv <;> rfl

theorem waysOf_overpass_error (e : String) :
    waysOf (overpass (.error e)) = [] := rfl

theorem category_all_error (G : GeometryOracle) (e1 e2 e3 : String)
    (lat lon h : ℚ) (sectors : ℕ) :
    (decide_exposure G (.error e1) (.error e2) (.error e3)
      lat lon h sectors).exposure_category = "C" := by
  have hcat : (decide_exposure G (.error e1) (.error e2) (.error e3)
      lat lon h sectors).exposure_category =
      exposure_category_core (decideFetches G (.error e1) lat lon sectors)
        (decideDWater G (.error e1) lat lon) (inland_limit_m_of h)
        (building_density_per_km2 (.error e2) 800)
        (roughness_index (landcover_mix G (.error e3))) := rfl
  rw [hcat, decideFetches_error,
    exposure_category_core_not_D _ _ _ _ _ (by rfl),
    building_density_error_800,
    roughness_index_no_ways G _ (waysOf_overpass_error e3)]
  norm_num

/-! ### Claim C2 -/

theorem exposure_note_core_not_D (fetches : List ℚ) (dw : Option ℚ)
    (limit dens r : ℚ)
    (h : fetches.any (sectorQualD dw limit) = false) :
    exposure_note_core fetches dw limit dens r = .exposureB ∨
      exposure_note_core fetches dw limit dens r = .exposureC := by
  rw [exposure_note_core, if_neg (by simp [h])]
  by_cases h2 : 200 ≤ dens ∨ (0.75 : ℚ) ≤ r
  · left; simp [h2]
  · right; simp [h2]

theorem notes_no_water_on_error (G : GeometryOracle) (e : String)
    (dOut mOut : Except String OverpassResult) (lat lon h : ℚ) (sectors : ℕ) :
    ∀ n ∈ (decide_exposure G (.error e) dOut mOut lat lon h sectors).notes,
      noteMentionsWater n = false := by
  intro n hn
  have hnotes : (decide_exposure G (.error e) dOut mOut lat lon h sectors).notes =
      [exposure_note_core (decideFetches G (.error e) lat lon sectors)
          (decideDWater G (.error e) lat lon) (inland_limit_m_of h)
          (building_density_per_km2 dOut 800)
          (roughness_index (landcover_mix G mOut))] ++
        [] ++
        [.densityRoughness (building_density_per_km2 dOut 800)
          (roughness_index (landcover_mix G mOut))] ++
        [.landcoverMixNote (landcover_mix G mOut)] := by
    have hd := decideDWater_error G e lat lon
    show ([exposure_note_core (decideFetches G (.error e) lat lon sectors)
          (decideDWater G (.error e) lat lon) (inland_limit_m_of h)
          (building_density_per_km2 dOut 800)
          (roughness_index (landcover_mix G mOut))] ++
        (match decideDWater G (.error e) lat lon with
         | some dw => [.waterDistance dw (inland_limit_m_of h)]
         | none => []) ++
        [.densityRoughness (building_density_per_km2 dOut 800)
          (roughness_index (landcover_mix G mOut))] ++
        (if landcover_mix G mOut ≠ [] then
          [.landcoverMixNote (landcover_mix G mOut)]
        else [])) = _
    rw [hd, if_pos (landcover_mix_ne_nil G mOut)]
  rw [hnotes] at hn
  have hq : (decideFetches G (.error e) lat lon sectors).any
      (sectorQualD (decideDWater G (.error e) lat lon) (inland_limit_m_of h)) =
      false := by
    rw [decideFetches_error]
    rfl
  simp only [List.append_nil, List.nil_append, List.append_assoc,
    List.mem_append, List.mem_singleton] at hn
  rcases hn with h1 | h1 | h1
  · rcases exposure_note_core_not_D _ _ _ _ _ hq with hB | hC
    · rw [h1, hB]; rfl
    · rw [h1, hC]; rfl
  · rw [h1]; rfl
  · rw [h1]; rfl

/-- C2 (amended): on a transport error the fetcher returns the
empty-fragment result, the water topology resolves to absent, and the site
still classifies as B or C (never D, never a crash); however, no rationale
note mentions the (missing) water data — the water-distance diagnostic is
simply omitted. -/
theorem c2_fail_open (G : GeometryOracle) (e : String)
    (dOut mOut : Except String OverpassResult) (lat lon h : ℚ) (sectors : ℕ) :
    overpass (.error e) = { elements := [] } ∧
    fetch_water_polys G (.error e) = none ∧
    ((decide_exposure G (.error e) dOut mOut lat lon h sectors).exposure_category = "B" ∨
      (decide_exposure G (.error e) dOut mOut lat lon h sectors).exposure_category = "C") ∧
    ∀ n ∈ (decide_exposure G (.error e) dOut mOut lat lon h sectors).notes,
      noteMentionsWater n = false := by
  refine ⟨rfl, fetch_water_polys_error G e, ?_, notes_no_water_on_error G e dOut mOut lat lon h sectors⟩
  have hcat : (decide_exposure G (.error e) dOut mOut lat lon h sectors).exposure_category =
      exposure_category_core (decideFetches G (.error e) lat lon sectors)
        (decideDWater G (.error e) lat lon) (inland_limit_m_of h)
        (building_density_per_km2 dOut 800)
        (roughness_index (landcover_mix G mOut)) := rfl
  rw [hcat]
  refine exposure_category_core_B_or_C _ _ _ _ _ ?_
  rw [decideFetches_error]
  rfl

/-- Counterexample to C2 as stated: at a concrete failed fetch the site
classifies C, yet no rationale note mentions water at all, so the notes do
not mention the missing water data. -/
theorem c2_counterexample :
    (decide_exposure waterOracle errOut errOut errOut 0 0 30 16).exposure_category = "C" ∧
    (decide_exposure waterOracle errOut errOut errOut 0 0 30 16).notes.all
      (fun n => !noteMentionsWater n) = true := by
  constructor
  · exact category_all_error waterOracle _ _ _ 0 0 30 16
  · rw [List.all_eq_true]
    intro n hn
    have := notes_no_water_on_error waterOracle "overpass timeout" errOut errOut
      0 0 30 16 n hn
    rw [this]
    rfl

/-! ### Claim C4 -/

/-- C4 (amended): when the water topology is present the sector sequence has
exactly N entries whose azimuths are `round(i * 360 / N, 1)` for
`i = 0, …, N-1` (evenly spaced from 0° up to the output rounding); when the
topology is absent, `decide_exposure` skips the sector loop and the sector
sequence is empty. -/
theorem c4_sector_sequence (G : GeometryOracle)
    (wOut dOut mOut : Except String OverpassResult)
    (lat lon h : ℚ) (sectors : ℕ) :
    (fetch_water_polys G wOut = none →
      (decide_exposure G wOut dOut mOut lat lon h sectors).sector_results = []) ∧
    (fetch_water_polys G wOut ≠ none →
      (decide_exposure G wOut dOut mOut lat lon h sectors).sector_results.length =
        sectors ∧
      ((decide_exposure G wOut dOut mOut lat lon h sectors).sector_results).map
          Prod.fst =
        (List.range sectors).map (fun i => pyRound (sectorAz sectors i) 1)) := by
  have hsr : (decide_exposure G wOut dOut mOut lat lon h sectors).sector_results =
      decideSectorResults G wOut lat lon sectors := rfl
  constructor
  · intro hnone
    rw [hsr, decideSectorResults, hnone]
  · intro hne
    obtain ⟨wp, hwp⟩ := Option.ne_none_iff_exists'.mp hne
    rw [hsr, decideSectorResults, hwp]
    constructor
    · simp
    · rw [List.map_map]
      rfl

/-- Counterexample to C4 as stated: with 16 sectors requested and an absent
topology the sector sequence is empty, not 16 zero-fetch entries. -/
theorem c4_counterexample :
    ¬ ((decide_exposure waterOracle errOut errOut errOut 0 0 30 16).sector_results.length = 16) := by
  have hsr : (decide_exposure waterOracle errOut errOut errOut 0 0 30 16).sector_results =
      decideSectorResults waterOracle errOut 0 0 16 := rfl
  rw [hsr, show errOut = Except.error "overpass timeout" from rfl,
    decideSectorResults_error]
  simp

/-! ### Concrete-topology evaluation and remaining witnesses -/

theorem fetch_water_polys_ok_eval :
    fetch_water_polys waterOracle okWaterOut =
      some [{ shell := [(0, 0), (1, 0), (0, 1), (0, 0)], holes := [] }] := rfl

/-- Witness for C4 with the topology present and two sectors. -/
theorem c4_sector_sequence_witness :
    (decide_exposure waterOracle okWaterOut errOut errOut 0 0 30 2).sector_results.length = 2 ∧
    ((decide_exposure waterOracle okWaterOut errOut errOut 0 0 30 2).sector_results).map
        Prod.fst =
      (List.range 2).map (fun i => pyRound (sectorAz 2 i) 1) :=
  (c4_sector_sequence waterOracle okWaterOut errOut errOut 0 0 30 2).2
    (by rw [fetch_water_polys_ok_eval]; exact Option.some_ne_none _)

/-- Witness for C1 at an input whose category is C. -/
theorem c1_category_D_iff_witness :
    (decide_exposure waterOracle errOut errOut errOut 0 0 30 16).exposure_category =
      (if 200 ≤ building_density_per_km2 errOut 800 ∨
          (0.75 : ℚ) ≤ roughness_index (landcover_mix waterOracle errOut)
       then "B" else "C") :=
  (c1_category_D_iff waterOracle errOut errOut errOut 0 0 30 16).2
    (ne_of_eq_of_ne
      (category_all_error waterOracle "overpass timeout" "overpass timeout"
        "overpass timeout" 0 0 30 16)
      (by decide))

/-! ### Claim C5 -/

/-- C5 (amended): when no classified land-cover area is found,
`landcover_mix` returns the non-empty all-zero six-label mapping and the
roughness index is 0, not 0.5; the 0.5 neutral default applies only to the
literally empty mapping, which `landcover_mix` never returns. -/
theorem c5_roughness_default (G : GeometryOracle)
    (o : Except String OverpassResult) :
    landcover_mix G o ≠ [] ∧
    ((∀ kv ∈ landcover_mix G o, kv.2 = 0) →
      roughness_index (landcover_mix G o) = 0) ∧
    roughness_index [] = 0.5 :=
  ⟨landcover_mix_ne_nil G o,
   fun h => roughness_index_of_all_zero _ (landcover_mix_ne_nil G o) h,
   rfl⟩

/-- Counterexample to C5 as stated: at a concrete analysis with no
classified area the roughness index is 0, not the claimed 0.5. -/
theorem c5_counterexample :
    roughness_index (landcover_mix waterOracle errOut) = 0 ∧
    ¬ (roughness_index (landcover_mix waterOracle errOut) = 0.5) := by
  have h0 : roughness_index (landcover_mix waterOracle errOut) = 0 :=
    roughness_index_no_ways waterOracle errOut rfl
  refine ⟨h0, ?_⟩
  rw [h0]
  norm_num

/-- Witness for C5 (amended) at a successful but empty reply. -/
theorem c5_roughness_default_witness :
    landcover_mix waterOracle emptyOut ≠ [] ∧
    roughness_index (landcover_mix waterOracle emptyOut) = 0 ∧
    roughness_index [] = 0.5 :=
  ⟨(c5_roughness_default waterOracle emptyOut).1,
   (c5_roughness_default waterOracle emptyOut).2.1
     (by
       rw [landcover_mix_no_ways waterOracle emptyOut rfl]
       intro kv hkv
       fin_cases hkv <;> rfl),
   (c5_roughness_default waterOracle emptyOut).2.2⟩

/-! ### Claim C10 -/

/-- C10: the land-cover mix always has exactly the six fixed labels as its
key sequence, every proportion is non-negative, the proportions sum to 1
when any classified area was found (positive raw total), and they are all 0
otherwise. -/
theorem c10_landcover_mix_invariants (G : GeometryOracle)
    (o : Except String OverpassResult) :
    (landcover_mix G o).map Prod.fst =
      ["forest", "farmland", "meadow", "residential", "industrial", "commercial"] ∧
    (∀ kv ∈ landcover_mix G o, 0 ≤ kv.2) ∧
    (0 < ((landcover_totals G o).map (fun kv => kv.2)).sum →
      ((landcover_mix G o).map (fun kv => kv.2)).sum = 1) ∧
    (¬ 0 < ((landcover_totals G o).map (fun kv => kv.2)).sum →
      ∀ kv ∈ landcover_mix G o, kv.2 = 0) :=
  ⟨landcover_mix_fst G o, landcover_mix_nonneg G o,
   fun h => landcover_mix_sum_one G o h,
   fun h => landcover_mix_all_zero G o h⟩

theorem landcover_totals_ok_eval :
    landcover_totals waterOracle okLcOut =
      [("forest", 0), ("farmland", 0), ("meadow", 0), ("residential", 12321),
       ("industrial", 0), ("commercial", 0)] := by
  have h : landcover_totals waterOracle okLcOut =
      [("forest", 0), ("farmland", 0), ("meadow", 0),
       ("residential", 0 + max 0 (1 * (111000 : ℚ) ^ 2 / 1000000)),
       ("industrial", 0), ("commercial", 0)] := rfl
  rw [h]
  norm_num [max_def]

/-- Witness for C10 at a reply holding one classified residential way. -/
theorem c10_landcover_mix_invariants_witness :
    (landcover_mix waterOracle okLcOut).map Prod.fst =
      ["forest", "farmland", "meadow", "residential", "industrial", "commercial"] ∧
    ((landcover_mix waterOracle okLcOut).map (fun kv => kv.2)).sum = 1 :=
  ⟨(c10_landcover_mix_invariants waterOracle okLcOut).1,
   (c10_landcover_mix_invariants waterOracle okLcOut).2.2.1
     (by rw [landcover_totals_ok_eval]; norm_num)⟩

/-! ### Claim C7 -/

/-- C7 (amended): the building density is the way count divided by
`π (r/1000)²` for every non-zero radius — including negative radii, whose
square still gives a positive area — and is 0 only when the radius is 0. -/
theorem c7_building_density (o : Except String OverpassResult) (r : ℚ) :
    (r ≠ 0 → building_density_per_km2 o r =
      (((overpass o).elements.filter isWayEl).length : ℚ) /
        (mathPi * (r / 1000) ^ 2)) ∧
    (r = 0 → building_density_per_km2 o r = 0) := by
  constructor
  · intro hr
    have h1 : (r / 1000 : ℚ) ≠ 0 := div_ne_zero hr (by norm_num)
    have h2 : 0 < (r / 1000 : ℚ) ^ 2 :=
      lt_of_le_of_ne (sq_nonneg _) (Ne.symm (pow_ne_zero 2 h1))
    have hpi : 0 < mathPi := by rw [mathPi]; norm_num
    rw [building_density_per_km2, if_pos (mul_pos hpi h2)]
  · intro hr
    subst hr
    rw [building_density_per_km2]
    norm_num

/-- Counterexample to C7 as stated: a negative radius gives a positive
squared area, so the density is `1/π`, not the claimed 0. -/
theorem c7_counterexample :
    building_density_per_km2 okBldgOut (-1000) = 1 / mathPi ∧
    ¬ (building_density_per_km2 okBldgOut (-1000) = 0) := by
  have hpi : 0 < mathPi := by rw [mathPi]; norm_num
  have h : building_density_per_km2 okBldgOut (-1000) = 1 / mathPi := by
    rw [building_density_per_km2]
    rw [if_pos (by norm_num [mathPi] : (0 : ℚ) < mathPi * ((-1000 : ℚ) / 1000) ^ 2)]
    norm_num [overpass, okBldgOut, bldgElems, isWayEl, List.filter]
  refine ⟨h, ?_⟩
  rw [h]
  positivity

/-- Witness for C7 (amended) at radii -1000 and 0. -/
theorem c7_building_density_witness :
    building_density_per_km2 okBldgOut (-1000) =
      (((overpass okBldgOut).elements.filter isWayEl).length : ℚ) /
        (mathPi * ((-1000 : ℚ) / 1000) ^ 2) ∧
    building_density_per_km2 okBldgOut 0 = 0 :=
  ⟨(c7_building_density okBldgOut (-1000)).1 (by norm_num),
   (c7_building_density okBldgOut 0).2 rfl⟩

/-! ### Claim C6 -/

/-- C6 (amended): every polygon built from a relation carries the feature's
whole inner-ring list as its holes — each inner ring is attached to every
outer ring, not only to the first — and, under an all-valid geometry oracle,
the outer rings each become exactly one polygon, in order. -/
theorem c6_holes_attachment (G : GeometryOracle)
    (nodes : List (ℤ × (ℚ × ℚ))) (ways : List OsmWay) (r : OsmRelation) :
    (∀ p ∈ relPolys G nodes ways r,
      p.shell ∈ (relRings nodes ways r).1 ∧
        p.holes = (relRings nodes ways r).2) ∧
    ((∀ poly, G.isValid poly = true) → (∀ poly, G.isEmpty poly = false) →
      relTypeOk r = true →
      (relPolys G nodes ways r).map SPolygon.shell = (relRings nodes ways r).1) :=
  ⟨relPolys_mem G nodes ways r,
   fun hv he ht => relPolys_all_valid G nodes ways r hv he ht⟩

theorem relPolys_fixture_eval :
    relPolys waterOracle (nodesOf relElems) (waysOf relElems) relFixture =
      [{ shell := relOuter1, holes := [relInner1] },
       { shell := relOuter2, holes := [relInner1] }] := rfl

/-- Counterexample to C6 as stated: with two outer rings and one inner ring
the second outer polygon also carries the inner ring as a hole, refuting
"attached to the first outer ring and to no other". -/
theorem c6_counterexample :
    relPolys waterOracle (nodesOf relElems) (waysOf relElems) relFixture =
      [{ shell := relOuter1, holes := [relInner1] },
       { shell := relOuter2, holes := [relInner1] }] ∧
    ¬ ((relPolys waterOracle (nodesOf relElems) (waysOf relElems)
        relFixture).map SPolygon.holes = [[relInner1], []]) := by
  refine ⟨relPolys_fixture_eval, ?_⟩
  rw [relPolys_fixture_eval]
  simp [relInner1]

/-- Witness for C6 (amended) at the two-outer one-inner fixture. -/
theorem c6_holes_attachment_witness :
    (({ shell := relOuter2, holes := [relInner1] } : SPolygon).shell ∈
        (relRings (nodesOf relElems) (waysOf relElems) relFixture).1 ∧
      ({ shell := relOuter2, holes := [relInner1] } : SPolygon).holes =
        (relRings (nodesOf relElems) (waysOf relElems) relFixture).2) ∧
    (relPolys waterOracle (nodesOf relElems) (waysOf relElems)
        relFixture).map SPolygon.shell =
      (relRings (nodesOf relElems) (waysOf relElems) relFixture).1 :=
  ⟨(c6_holes_attachment waterOracle (nodesOf relElems) (waysOf relElems)
      relFixture).1 _
     (by
       rw [relPolys_fixture_eval]
       exact List.mem_cons_of_mem _ (List.mem_cons_self _ _)),
   (c6_holes_attachment waterOracle (nodesOf relElems) (waysOf relElems)
      relFixture).2 (fun _ => rfl) (fun _ => rfl) rfl⟩

end ExposureWind
